import Mathlib

/-!
Verification development for the ContentSearch tool (`src/main.rs`).

The embedding models `perform_search` and its helpers:
* the enumeration/filter loop (lines 61-134) over an abstract list of
  directory entries, where filesystem failures (glob entry errors, invalid
  UTF-8 paths, metadata failures) are explicit constructors;
* the scan loop (lines 140-206), with the filesystem modelled as a function
  from path to an open/read outcome;
* the `aho_corasick` 0.7 `AhoCorasick::new(patterns).find_iter(haystack)`
  search used at lines 184-194.  `AhoCorasick::new` defaults to
  `MatchKind::Standard`, and `find_iter` is the *non-overlapping* iterator:
  starting from the current position it reports a match as soon as the
  automaton enters a match state (i.e. at the smallest end offset at which
  some pattern ends), reporting the longest pattern ending there (the match
  state's own pattern, falling back to its suffix/fail chain), and resumes
  the automaton from scratch at the end offset of the reported match (one
  past it for an empty match).

Patterns and file contents are byte sequences (`List Nat`); the code matches
raw bytes (`Vec<u8>`), so patterns are modelled by their UTF-8 byte lists.
Skip reasons are formatted strings in the code; each distinct format string
is modelled by one constructor of `SkipReason`.
-/

namespace ContentSearch

/-- A literal search pattern, as its byte sequence. -/
abbrev Pat := List Nat

/-- The distinct skip-reason messages produced by `perform_search`
(lines 67, 82, 95, 111, 125, 161, 176 of `src/main.rs`). -/
inductive SkipReason where
  | enumerationError
  | pathEncodingError
  | metadataError
  | extensionMismatch
  | sizeExceeded
  | openError
  | readError
deriving DecidableEq, Repr

/-- `struct SkippedFile` (lines 20-26). -/
structure SkippedFile where
  file_path : String
  skip_reason : SkipReason
deriving DecidableEq, Repr

/-- `struct MatchedFile` (lines 12-18); `matched_patterns` holds patterns as bytes. -/
structure MatchedFile where
  file_path : String
  matched_patterns : List Pat
deriving DecidableEq, Repr

/-- `struct SearchResults` (lines 28-37). -/
structure SearchResults where
  matched_files : List MatchedFile
  skipped_files : List SkippedFile
  unmatched_files : List String
deriving DecidableEq, Repr

/-- One item yielded by the `glob` iterator (line 61): either an entry-level
error (`Err` arm, line 64), or a filesystem object with: whether it is a
regular file (line 76), its path if representable as UTF-8 (`to_str`,
line 77; `none` models invalid UTF-8), and its size if metadata retrieval
succeeds (line 90; `none` models a metadata error). -/
inductive DirEntry where
  | err
  | entry (isFile : Bool) (path : Option String) (size : Option Nat)
deriving DecidableEq, Repr

/-- Outcome of `File::open` plus `read_to_end` for one queued path
(lines 156-182): open failure, read failure, or the file's bytes. -/
inductive ReadOutcome where
  | openError
  | readError
  | ok (contents : List Nat)
deriving DecidableEq, Repr

/-- Classification of one regular-file candidate by the filter stage. -/
inductive Outcome where
  | cutoff
  | skip (path : String) (reason : SkipReason)
  | queue (path : String)
deriving DecidableEq, Repr

/-! ### Model of `aho_corasick` 0.7 `find_iter` (standard semantics) -/

/-- `patMatchesAt p h s j` holds when an occurrence of pattern `p` ends at
offset `j` of haystack `h` and starts no earlier than the current scan
position `s`: `p` is a suffix of the first `j` bytes and fits inside the
window `[s, j)`. -/
def patMatchesAt (p : Pat) (h : List Nat) (s j : Nat) : Bool :=
  decide (p.length + s ≤ j) && p.isSuffixOf (h.take j)

/-- Some pattern's occurrence ends at offset `j` (within the window from `s`). -/
def hasMatchEndingAt (pats : List Pat) (h : List Nat) (s j : Nat) : Bool :=
  pats.any (fun p => patMatchesAt p h s j)

/-- Scan offsets `j, j+1, ...` (at most `fuel` of them) for the first offset
at which some pattern ends.  This is the offset at which the automaton run
restarted at position `s` first enters a match state. -/
def firstMatchEnd (pats : List Pat) (h : List Nat) (s : Nat) : Nat → Nat → Option Nat
  | _, 0 => none
  | j, fuel + 1 =>
    if hasMatchEndingAt pats h s j then some j
    else firstMatchEnd pats h s (j + 1) fuel

/-- Smallest end offset `j ∈ [s, h.length]` at which some pattern ends. -/
def nextMatchEnd (pats : List Pat) (h : List Nat) (s : Nat) : Option Nat :=
  firstMatchEnd pats h s s (h.length + 1 - s)

/-- The pattern the standard-semantics automaton reports for the match state
entered at end offset `j`: the longest pattern whose occurrence ends at `j`
(the state's own pattern precedes the matches inherited along its fail
chain, which are its proper suffixes). -/
def bestPatternAt (pats : List Pat) (h : List Nat) (s j : Nat) : Pat :=
  (pats.filter (fun p => patMatchesAt p h s j)).foldl
    (fun best p => if best.length < p.length then p else best) []

/-- The sequence of matches reported by `find_iter`, as
`(pattern, start offset, end offset)` triples, scanning from position `s`
with the given fuel.  After a report the search resumes at the match's end
offset, or one byte further for an empty match (the iterator's empty-match
guard). -/
def findIterAux (pats : List Pat) (h : List Nat) : Nat → Nat → List (Pat × Nat × Nat)
  | 0, _ => []
  | fuel + 1, s =>
    match nextMatchEnd pats h s with
    | none => []
    | some j =>
      let p := bestPatternAt pats h s j
      (p, j - p.length, j) :: findIterAux pats h fuel (if p.length = 0 then s + 1 else j)

/-- All matches reported by `find_iter` over `h` (the resume position grows
strictly at every step, so `h.length + 2` fuel never truncates the scan). -/
def findIter (pats : List Pat) (h : List Nat) : List (Pat × Nat × Nat) :=
  findIterAux pats h (h.length + 2) 0

/-- The dedup loop of lines 188-194: record each reported pattern unless it
is already recorded. -/
def collectMatchedPatterns : List (Pat × Nat × Nat) → List Pat → List Pat
  | [], acc => acc
  | m :: rest, acc =>
    if acc.contains m.1 then collectMatchedPatterns rest acc
    else collectMatchedPatterns rest (acc ++ [m.1])

/-- The `matched_patterns` list built for one file's contents (lines 186-194). -/
def matchedPatterns (pats : List Pat) (h : List Nat) : List Pat :=
  collectMatchedPatterns (findIter pats h) []

/-! ### Model of the queue-building loop (lines 61-134) -/

/-- The filter logic applied to one regular-file candidate, exactly as in
lines 77-130: path conversion, metadata, the queue-count cutoff
(`file_count_matters && queued_files.len() > *max_files`, line 104), the
extension allow-list (line 108), and the size test (line 119).  `qlen` is
`queued_files.len()` at the time the candidate is examined.  The flags
`extensions_matter`, `file_size_matters` and `file_count_matters` of
lines 46-48 are inlined as their defining comparisons. -/
def stepOutcome (file_extensions : List String) (max_file_size max_files qlen : Nat)
    (path : Option String) (size_res : Option Nat) : Outcome :=
  match path with
  | none => .skip "Unknown" .pathEncodingError
  | some absolute_file_path =>
    match size_res with
    | none => .skip absolute_file_path .metadataError
    | some file_size =>
      if decide (0 < max_files) && decide (qlen > max_files) then .cutoff
      else if decide (0 < file_extensions.length)
          && !(file_extensions.any fun ext => absolute_file_path.endsWith ext) then
        .skip absolute_file_path .extensionMismatch
      else if !(decide (0 < max_file_size))
          || (decide (0 < max_file_size) && decide (file_size ≤ max_file_size)) then
        .queue absolute_file_path
      else
        .skip absolute_file_path .sizeExceeded

/-- The queue-building loop (lines 61-134): consumes the glob entries in
order, producing the queued paths and the skip records added during this
phase.  An `Err` entry records one skip and continues (lines 64-72);
non-files are ignored (the `is_file` test, line 76); a regular file is
classified by `stepOutcome`, where `.cutoff` is the `break` of line 105
(everything after it is dropped), a skip appends one record and continues,
and a queue outcome pushes the path (line 120) so later entries see
`qlen + 1`. -/
def buildQueue (file_extensions : List String) (max_file_size max_files qlen : Nat) :
    List DirEntry → List String × List SkippedFile
  | [] => ([], [])
  | .err :: rest =>
    let r := buildQueue file_extensions max_file_size max_files qlen rest
    (r.1, ⟨"Unknown", .enumerationError⟩ :: r.2)
  | .entry isFile path size :: rest =>
    if isFile then
      match stepOutcome file_extensions max_file_size max_files qlen path size with
      | .cutoff => ([], [])
      | .skip p reason =>
        let r := buildQueue file_extensions max_file_size max_files qlen rest
        (r.1, ⟨p, reason⟩ :: r.2)
      | .queue p =>
        let r := buildQueue file_extensions max_file_size max_files (qlen + 1) rest
        (p :: r.1, r.2)
    else buildQueue file_extensions max_file_size max_files qlen rest

/-- The scan loop (lines 140-206): each queued path is opened and read
(`readFs` models the filesystem); an open or read failure records one skip
and continues; otherwise the file's matched-pattern list decides between
the matched bucket (non-empty, line 196) and the unmatched bucket.
Returns `(matched, skipped, unmatched)` in processing order. -/
def scanFiles (readFs : String → ReadOutcome) (pats : List Pat) :
    List String → List MatchedFile × List SkippedFile × List String
  | [] => ([], [], [])
  | f :: rest =>
    match readFs f with
    | .openError =>
      let r := scanFiles readFs pats rest
      (r.1, ⟨f, .openError⟩ :: r.2.1, r.2.2)
    | .readError =>
      let r := scanFiles readFs pats rest
      (r.1, ⟨f, .readError⟩ :: r.2.1, r.2.2)
    | .ok contents =>
      let mp := matchedPatterns pats contents
      let r := scanFiles readFs pats rest
      if 0 < mp.length then (⟨f, mp⟩ :: r.1, r.2.1, r.2.2)
      else (r.1, r.2.1, f :: r.2.2)

/-- Number of times the scan loop executes `AhoCorasick::new(patterns)`
(line 184): the construction sits inside the per-file loop, after a
successful open and read, so it runs once per queued file whose contents
are read successfully. -/
def automatonBuilds (readFs : String → ReadOutcome) : List String → Nat
  | [] => 0
  | f :: rest =>
    match readFs f with
    | .ok _ => automatonBuilds readFs rest + 1
    | _ => automatonBuilds readFs rest

/-- The glob pattern built from the root directory (line 50). -/
def glob_pattern (directory : String) : String :=
  if directory.endsWith "/" || directory.endsWith "\\" then directory ++ "**/*"
  else directory ++ "/**/*"

/-- `perform_search` (lines 39-211).  `glob` models `glob::glob` (its
result on the constructed glob pattern: a top-level error, or the entry
sequence), `readFs` models open/read of a queued path.  A glob error is
returned as the top-level `Err` (line 54); otherwise the queue is built,
the queued files are scanned, and the three buckets are returned
(skips of both phases are pushed into the same vector, in order). -/
def perform_search (glob : String → Except String (List DirEntry))
    (readFs : String → ReadOutcome) (directory : String)
    (file_extensions : List String) (patterns : List Pat)
    (max_file_size max_files : Nat) : Except String SearchResults :=
  match glob (glob_pattern directory) with
  | .error e =>
    .error ("Couldn't retrieve directory entries for the directory (" ++ directory
      ++ "), error: " ++ e)
  | .ok directory_entries =>
    let q := buildQueue file_extensions max_file_size max_files 0 directory_entries
    let s := scanFiles readFs patterns q.1
    .ok { matched_files := s.1, skipped_files := q.2 ++ s.2.1, unmatched_files := s.2.2 }

/-! ### Specification-side definitions -/

/-- Modelled from the spec: the per-candidate decision rules of §4.2,
applied in the spec's stated order — 1 path-encoding, 2 metadata, 3
queue-count cutoff, 4 extension allow-list, 5 size limit, 6 queue — with
each boundary as observed in the source (§9 notes the cutoff is a strict
greater-than test on the already-queued count, evaluated before the
candidate is classified). -/
def classifySpec (file_extensions : List String) (max_file_size max_files qlen : Nat)
    (path : Option String) (size_res : Option Nat) : Outcome :=
  match path with
  | none => .skip "Unknown" .pathEncodingError
  | some p =>
    match size_res with
    | none => .skip p .metadataError
    | some sz =>
      if 0 < max_files ∧ max_files < qlen then .cutoff
      else if file_extensions ≠ [] ∧ ∀ e ∈ file_extensions, ¬ p.endsWith e then
        .skip p .extensionMismatch
      else if 0 < max_file_size ∧ max_file_size < sz then
        .skip p .sizeExceeded
      else .queue p

/-- Start offset of the first occurrence of `p` in `h` (the spec's
"first-occurrence order by start offset"). -/
def firstOccIdx (p : Pat) (h : List Nat) : Option Nat :=
  (List.range (h.length + 1)).find? (fun i => p.isPrefixOf (h.drop i))

/-- The claim C7 ordering: each adjacent pair of recorded patterns is in
first-occurrence order by start offset in the file (a missing occurrence is
ordered last). -/
def sortedByFirstOcc (h : List Nat) (l : List Pat) : Prop :=
  List.Pairwise (fun p q =>
    (firstOccIdx p h).getD (h.length + 1) ≤ (firstOccIdx q h).getD (h.length + 1)) l

/-- Start offset of the first occurrence of `p` that the non-overlapping
scan actually reports. -/
def firstReportedStart (pats : List Pat) (h : List Nat) (p : Pat) : Option Nat :=
  ((findIter pats h).find? (fun m => m.1 == p)).map (fun m => m.2.1)

/-- The matches kept by the dedup loop: the first reported match of each
pattern not already seen. -/
def dedupFirstBy : List (Pat × Nat × Nat) → List Pat → List (Pat × Nat × Nat)
  | [], _ => []
  | m :: rest, seen =>
    if m.1 ∈ seen then dedupFirstBy rest seen
    else m :: dedupFirstBy rest (seen ++ [m.1])

/-- Number of enumerated entries that receive a classification (one skip
record or one queue slot): `Err` entries and regular files, up to the
queue-count cutoff.  Non-file entries classify nothing, and the entry
triggering the cutoff and everything after it classify nothing. -/
def classifiedCount (file_extensions : List String) (max_file_size max_files qlen : Nat) :
    List DirEntry → Nat
  | [] => 0
  | .err :: rest => classifiedCount file_extensions max_file_size max_files qlen rest + 1
  | .entry isFile path size :: rest =>
    if isFile then
      match stepOutcome file_extensions max_file_size max_files qlen path size with
      | .cutoff => 0
      | .skip _ _ => classifiedCount file_extensions max_file_size max_files qlen rest + 1
      | .queue _ => classifiedCount file_extensions max_file_size max_files (qlen + 1) rest + 1
    else classifiedCount file_extensions max_file_size max_files qlen rest

/-! ### Helper lemmas: the reported pattern of a match state -/

theorem foldl_longest_mem (l : List Pat) (init : Pat) :
    l.foldl (fun best p => if best.length < p.length then p else best) init = init ∨
    l.foldl (fun best p => if best.length < p.length then p else best) init ∈ l := by
  induction l generalizing init with
  | nil => exact Or.inl rfl
  | cons a l ih =>
    simp only [List.foldl_cons]
    rcases ih (if init.length < a.length then a else init) with h | h
    · rw [h]
      split
      · exact Or.inr (List.mem_cons_self _ _)
      · exact Or.inl rfl
    · exact Or.inr (List.mem_cons_of_mem _ h)

theorem foldl_longest_init_le (l : List Pat) (init : Pat) :
    init.length ≤
      (l.foldl (fun best p => if best.length < p.length then p else best) init).length := by
  induction l generalizing init with
  | nil => simp
  | cons a l ih =>
    simp only [List.foldl_cons]
    refine le_trans ?_ (ih (if init.length < a.length then a else init))
    split <;> omega

theorem foldl_longest_le (l : List Pat) (q : Pat) :
    ∀ init : Pat, q ∈ l →
      q.length ≤
        (l.foldl (fun best p => if best.length < p.length then p else best) init).length := by
  induction l with
  | nil => intro init hq; cases hq
  | cons a l ih =>
    intro init hq
    simp only [List.foldl_cons]
    rcases List.mem_cons.mp hq with rfl | hq
    · refine le_trans ?_ (foldl_longest_init_le l _)
      split <;> omega
    · exact ih _ hq

theorem bestPatternAt_spec (pats : List Pat) (h : List Nat) (s j : Nat) :
    bestPatternAt pats h s j = [] ∨
    (bestPatternAt pats h s j ∈ pats ∧ patMatchesAt (bestPatternAt pats h s j) h s j = true) := by
  rcases foldl_longest_mem (pats.filter (fun p => patMatchesAt p h s j)) [] with hc | hc
  · exact Or.inl hc
  · rcases List.mem_filter.mp hc with ⟨hmem, hcond⟩
    exact Or.inr ⟨hmem, hcond⟩

theorem bestPatternAt_longest (pats : List Pat) (h : List Nat) (s j : Nat)
    (q : Pat) (hq : q ∈ pats) (hcond : patMatchesAt q h s j = true) :
    q.length ≤ (bestPatternAt pats h s j).length :=
  foldl_longest_le _ q [] (List.mem_filter.mpr ⟨hq, hcond⟩)

/-! ### Helper lemmas: the next match end offset -/

theorem firstMatchEnd_some {pats : List Pat} {h : List Nat} {s : Nat} :
    ∀ {fuel j j'}, firstMatchEnd pats h s j fuel = some j' →
      j ≤ j' ∧ hasMatchEndingAt pats h s j' = true ∧
      ∀ k, j ≤ k → k < j' → hasMatchEndingAt pats h s k = false := by
  intro fuel
  induction fuel with
  | zero => intro j j' hj; simp [firstMatchEnd] at hj
  | succ fuel ih =>
    intro j j' hj
    rw [firstMatchEnd] at hj
    split at hj
    · rename_i hmatch
      cases hj
      exact ⟨le_refl _, hmatch, fun k hk1 hk2 => absurd hk1 (by omega)⟩
    · rename_i hmatch
      obtain ⟨h1, h2, h3⟩ := ih hj
      refine ⟨by omega, h2, fun k hk1 hk2 => ?_⟩
      rcases Nat.eq_or_lt_of_le hk1 with rfl | hlt
      · exact Bool.of_not_eq_true hmatch
      · exact h3 k hlt hk2

theorem nextMatchEnd_some {pats : List Pat} {h : List Nat} {s j : Nat}
    (hj : nextMatchEnd pats h s = some j) :
    s ≤ j ∧ hasMatchEndingAt pats h s j = true ∧
    ∀ k, s ≤ k → k < j → hasMatchEndingAt pats h s k = false :=
  firstMatchEnd_some hj

theorem nil_isSuffixOf (l : List Nat) : ([] : List Nat).isSuffixOf l = true := by
  simp

theorem patMatchesAt_nil_self (h : List Nat) (s : Nat) :
    patMatchesAt [] h s s = true := by
  simp [patMatchesAt, nil_isSuffixOf]

/-- When the reported pattern is empty, the match end is the scan position
itself (an empty pattern matches immediately at every position). -/
theorem bestPatternAt_nil_end {pats : List Pat} {h : List Nat} {s j : Nat}
    (hj : nextMatchEnd pats h s = some j) (hb : bestPatternAt pats h s j = []) :
    j = s ∧ [] ∈ pats := by
  obtain ⟨hsj, hmatch, hmin⟩ := nextMatchEnd_some hj
  rw [hasMatchEndingAt, List.any_eq_true] at hmatch
  obtain ⟨q, hqmem, hqcond⟩ := hmatch
  have hlen := bestPatternAt_longest pats h s j q hqmem hqcond
  rw [hb] at hlen
  simp only [List.length_nil, Nat.le_zero] at hlen
  have hqnil : q = [] := List.eq_nil_of_length_eq_zero hlen
  subst hqnil
  have hnil : [] ∈ pats := hqmem
  refine ⟨?_, hnil⟩
  by_contra hne
  have hslt : s < j := by omega
  have hfalse := hmin s (le_refl s) hslt
  rw [hasMatchEndingAt] at hfalse
  have := (List.any_eq_false.mp hfalse) [] hnil
  rw [patMatchesAt_nil_self] at this
  exact this rfl

/-- The reported match fits inside the current window: its start offset is
at least the scan position. -/
theorem bestPatternAt_start_ge {pats : List Pat} {h : List Nat} {s j : Nat}
    (hj : nextMatchEnd pats h s = some j) :
    (bestPatternAt pats h s j).length + s ≤ j := by
  rcases bestPatternAt_spec pats h s j with hb | ⟨_, hcond⟩
  · rw [hb]
    simpa using (nextMatchEnd_some hj).1
  · rw [patMatchesAt, Bool.and_eq_true, decide_eq_true_eq] at hcond
    exact hcond.1

/-! ### Helper lemmas: structure of the reported match sequence -/

theorem mem_findIterAux_start {pats : List Pat} {h : List Nat} :
    ∀ {fuel s} m, m ∈ findIterAux pats h fuel s → s ≤ m.2.1 := by
  intro fuel
  induction fuel with
  | zero => intro s m hm; simp [findIterAux] at hm
  | succ fuel ih =>
    intro s m hm
    rw [findIterAux] at hm
    rcases hj : nextMatchEnd pats h s with _ | j
    · rw [hj] at hm; simp at hm
    · rw [hj] at hm
      simp only [List.mem_cons] at hm
      rcases hm with rfl | hm
      · have := bestPatternAt_start_ge hj
        simp only
        omega
      · have htail := ih m hm
        have hsj := (nextMatchEnd_some hj).1
        split at htail <;> omega

theorem findIterAux_pairwise_start {pats : List Pat} {h : List Nat} :
    ∀ {fuel s}, List.Pairwise (fun a b => a.2.1 < b.2.1) (findIterAux pats h fuel s) := by
  intro fuel
  induction fuel with
  | zero => intro s; simp [findIterAux]
  | succ fuel ih =>
    intro s
    rw [findIterAux]
    rcases hj : nextMatchEnd pats h s with _ | j
    · simp
    · refine List.pairwise_cons.mpr ⟨fun m hm => ?_, ih⟩
      have hm' := mem_findIterAux_start m hm
      simp only
      by_cases hnil : (bestPatternAt pats h s j).length = 0
      · rw [if_pos hnil] at hm'
        have hzero : bestPatternAt pats h s j = [] :=
          List.eq_nil_of_length_eq_zero hnil
        have := (bestPatternAt_nil_end hj hzero).1
        omega
      · rw [if_neg hnil] at hm'
        have := bestPatternAt_start_ge hj
        omega

theorem mem_findIterAux_pat {pats : List Pat} {h : List Nat} :
    ∀ {fuel s} m, m ∈ findIterAux pats h fuel s → m.1 ∈ pats := by
  intro fuel
  induction fuel with
  | zero => intro s m hm; simp [findIterAux] at hm
  | succ fuel ih =>
    intro s m hm
    rw [findIterAux] at hm
    rcases hj : nextMatchEnd pats h s with _ | j
    · rw [hj] at hm; simp at hm
    · rw [hj] at hm
      simp only [List.mem_cons] at hm
      rcases hm with rfl | hm
      · simp only
        rcases bestPatternAt_spec pats h s j with hb | ⟨hmem, _⟩
        · rw [hb]
          exact (bestPatternAt_nil_end hj hb).2
        · exact hmem
      · exact ih m hm

/-! ### Helper lemmas: the dedup loop -/

theorem pat_contains_iff {l : List Pat} {p : Pat} : l.contains p = true ↔ p ∈ l := by
  rw [List.contains_eq_any_beq, List.any_eq_true]
  constructor
  · rintro ⟨x, hx, e⟩
    rwa [show p = x from beq_iff_eq.mp e]
  · exact fun hp => ⟨p, hp, beq_iff_eq.mpr rfl⟩

theorem collect_eq_dedup :
    ∀ (ms : List (Pat × Nat × Nat)) (acc : List Pat),
      collectMatchedPatterns ms acc = acc ++ (dedupFirstBy ms acc).map (·.1) := by
  intro ms
  induction ms with
  | nil => intro acc; simp [collectMatchedPatterns, dedupFirstBy]
  | cons m rest ih =>
    intro acc
    rw [collectMatchedPatterns, dedupFirstBy]
    by_cases hmem : m.1 ∈ acc
    · rw [if_pos (pat_contains_iff.mpr hmem), if_pos hmem]
      exact ih acc
    · rw [if_neg (fun hc => hmem (pat_contains_iff.mp hc)), if_neg hmem]
      rw [ih (acc ++ [m.1])]
      simp

theorem dedupFirstBy_sublist :
    ∀ (ms : List (Pat × Nat × Nat)) (seen : List Pat),
      List.Sublist (dedupFirstBy ms seen) ms := by
  intro ms
  induction ms with
  | nil => intro seen; simp [dedupFirstBy]
  | cons m rest ih =>
    intro seen
    rw [dedupFirstBy]
    split
    · exact (ih seen).cons m
    · exact (ih (seen ++ [m.1])).cons₂ m

/-- Every match kept by the dedup loop is the first reported match of its
pattern: `find?` on the full report list returns exactly that match. -/
theorem dedupFirstBy_find? :
    ∀ (ms : List (Pat × Nat × Nat)) (seen : List Pat) m, m ∈ dedupFirstBy ms seen →
      m.1 ∉ seen ∧ ms.find? (fun x => x.1 == m.1) = some m := by
  intro ms
  induction ms with
  | nil => intro seen m hm; simp [dedupFirstBy] at hm
  | cons m0 rest ih =>
    intro seen m hm
    rw [dedupFirstBy] at hm
    split at hm
    · rename_i hseen
      obtain ⟨hnotseen, hfind⟩ := ih seen m hm
      have hne : (m0.1 == m.1) = false := by
        rcases hbe : m0.1 == m.1 with _ | _
        · rfl
        · exact absurd (beq_iff_eq.mp hbe ▸ hseen) hnotseen
      refine ⟨hnotseen, ?_⟩
      rw [List.find?_cons, hne]
      exact hfind
    · rename_i hseen
      rcases List.mem_cons.mp hm with rfl | hm
      · exact ⟨hseen, by rw [List.find?_cons, beq_iff_eq.mpr rfl]⟩
      · obtain ⟨hnotseen, hfind⟩ := ih (seen ++ [m0.1]) m hm
        have hne : m0.1 ≠ m.1 := by
          intro he
          exact hnotseen (by simp [he])
        have hbe : (m0.1 == m.1) = false := by
          rcases hb : m0.1 == m.1 with _ | _
          · rfl
          · exact absurd (beq_iff_eq.mp hb) hne
        refine ⟨fun hc => hnotseen (by simp [hc]), ?_⟩
        rw [List.find?_cons, hbe]
        exact hfind

theorem collect_nodup :
    ∀ (ms : List (Pat × Nat × Nat)) (acc : List Pat), acc.Nodup →
      (collectMatchedPatterns ms acc).Nodup := by
  intro ms
  induction ms with
  | nil => intro acc hacc; simpa [collectMatchedPatterns] using hacc
  | cons m rest ih =>
    intro acc hacc
    rw [collectMatchedPatterns]
    split
    · exact ih acc hacc
    · rename_i hc
      refine ih (acc ++ [m.1]) ?_
      rw [List.nodup_append]
      refine ⟨hacc, List.nodup_singleton _, fun a ha hb => ?_⟩
      simp only [List.mem_singleton] at hb
      subst hb
      exact hc (pat_contains_iff.mpr ha)

/-! ### Helper lemmas: properties of one file's matched-pattern list -/

theorem matchedPatterns_mem {pats : List Pat} {h : List Nat} {p : Pat}
    (hp : p ∈ matchedPatterns pats h) : p ∈ pats := by
  rw [matchedPatterns, collect_eq_dedup, List.nil_append] at hp
  obtain ⟨m, hm, rfl⟩ := List.mem_map.mp hp
  exact mem_findIterAux_pat m ((dedupFirstBy_sublist _ _).subset hm)

theorem matchedPatterns_nodup (pats : List Pat) (h : List Nat) :
    (matchedPatterns pats h).Nodup :=
  collect_nodup _ [] List.nodup_nil

theorem matchedPatterns_pairwise (pats : List Pat) (h : List Nat) :
    List.Pairwise (fun p q => ∃ sp sq,
        firstReportedStart pats h p = some sp ∧ firstReportedStart pats h q = some sq ∧ sp < sq)
      (matchedPatterns pats h) := by
  rw [matchedPatterns, collect_eq_dedup, List.nil_append, List.pairwise_map]
  have hpw : List.Pairwise (fun a b => a.2.1 < b.2.1) (dedupFirstBy (findIter pats h) []) :=
    List.Pairwise.sublist (dedupFirstBy_sublist _ _) findIterAux_pairwise_start
  refine hpw.imp_of_mem ?_
  intro a b ha hb hlt
  have hfa := (dedupFirstBy_find? _ _ a ha).2
  have hfb := (dedupFirstBy_find? _ _ b hb).2
  exact ⟨a.2.1, b.2.1, by rw [firstReportedStart, hfa]; rfl,
    by rw [firstReportedStart, hfb]; rfl, hlt⟩

/-! ### Helper lemmas: the scan loop -/

theorem mem_scanFiles_matched {readFs : String → ReadOutcome} {pats : List Pat} :
    ∀ {files : List String} {mf : MatchedFile}, mf ∈ (scanFiles readFs pats files).1 →
      mf.file_path ∈ files ∧ 0 < mf.matched_patterns.length ∧
      ∃ c, readFs mf.file_path = .ok c ∧ mf.matched_patterns = matchedPatterns pats c := by
  intro files
  induction files with
  | nil => intro mf hmf; simp [scanFiles] at hmf
  | cons f rest ih =>
    intro mf hmf
    rw [scanFiles] at hmf
    rcases hr : readFs f with _ | _ | contents <;> rw [hr] at hmf
    · obtain ⟨h1, h2, h3⟩ := ih hmf
      exact ⟨List.mem_cons_of_mem _ h1, h2, h3⟩
    · obtain ⟨h1, h2, h3⟩ := ih hmf
      exact ⟨List.mem_cons_of_mem _ h1, h2, h3⟩
    · simp only at hmf
      split at hmf
      · rename_i hpos
        rcases List.mem_cons.mp hmf with rfl | hmf
        · exact ⟨List.mem_cons_self _ _, hpos, contents, hr, rfl⟩
        · obtain ⟨h1, h2, h3⟩ := ih hmf
          exact ⟨List.mem_cons_of_mem _ h1, h2, h3⟩
      · obtain ⟨h1, h2, h3⟩ := ih hmf
        exact ⟨List.mem_cons_of_mem _ h1, h2, h3⟩

theorem mem_scanFiles_unmatched {readFs : String → ReadOutcome} {pats : List Pat} :
    ∀ {files : List String} {f : String}, f ∈ (scanFiles readFs pats files).2.2 →
      f ∈ files ∧ ∃ c, readFs f = .ok c ∧ matchedPatterns pats c = [] := by
  intro files
  induction files with
  | nil => intro f hf; simp [scanFiles] at hf
  | cons g rest ih =>
    intro f hf
    rw [scanFiles] at hf
    rcases hr : readFs g with _ | _ | contents <;> rw [hr] at hf
    · obtain ⟨h1, h2⟩ := ih hf
      exact ⟨List.mem_cons_of_mem _ h1, h2⟩
    · obtain ⟨h1, h2⟩ := ih hf
      exact ⟨List.mem_cons_of_mem _ h1, h2⟩
    · simp only at hf
      split at hf
      · obtain ⟨h1, h2⟩ := ih hf
        exact ⟨List.mem_cons_of_mem _ h1, h2⟩
      · rename_i hpos
        rcases List.mem_cons.mp hf with rfl | hf
        · refine ⟨List.mem_cons_self _ _, contents, hr, ?_⟩
          have : (matchedPatterns pats contents).length = 0 := by omega
          exact List.eq_nil_of_length_eq_zero this
        · obtain ⟨h1, h2⟩ := ih hf
          exact ⟨List.mem_cons_of_mem _ h1, h2⟩

theorem scanFiles_counts (readFs : String → ReadOutcome) (pats : List Pat) :
    ∀ files : List String,
      (scanFiles readFs pats files).1.length + (scanFiles readFs pats files).2.1.length +
        (scanFiles readFs pats files).2.2.length = files.length := by
  intro files
  induction files with
  | nil => simp [scanFiles]
  | cons f rest ih =>
    rw [scanFiles]
    rcases readFs f with _ | _ | contents
    · simp only [List.length_cons]
      omega
    · simp only [List.length_cons]
      omega
    · simp only
      split <;> simp only [List.length_cons] <;> omega

/-! ### Helper lemmas: the queue-building loop, step by step -/

theorem buildQueue_err_step (exts : List String) (ms mf qlen : Nat) (rest : List DirEntry) :
    buildQueue exts ms mf qlen (.err :: rest) =
      ((buildQueue exts ms mf qlen rest).1,
        ⟨"Unknown", .enumerationError⟩ :: (buildQueue exts ms mf qlen rest).2) := rfl

theorem buildQueue_nonfile_step (exts : List String) (ms mf qlen : Nat)
    (path : Option String) (size : Option Nat) (rest : List DirEntry) :
    buildQueue exts ms mf qlen (.entry false path size :: rest) =
      buildQueue exts ms mf qlen rest := rfl

theorem buildQueue_file_step (exts : List String) (ms mf qlen : Nat)
    (path : Option String) (size : Option Nat) (rest : List DirEntry) :
    buildQueue exts ms mf qlen (.entry true path size :: rest) =
      match stepOutcome exts ms mf qlen path size with
      | .cutoff => ([], [])
      | .skip p reason =>
        ((buildQueue exts ms mf qlen rest).1,
          ⟨p, reason⟩ :: (buildQueue exts ms mf qlen rest).2)
      | .queue p =>
        (p :: (buildQueue exts ms mf (qlen + 1) rest).1,
          (buildQueue exts ms mf (qlen + 1) rest).2) := by
  rw [buildQueue]
  rcases stepOutcome exts ms mf qlen path size with _ | ⟨p, reason⟩ | p <;> rfl

theorem buildQueue_file_cutoff {exts : List String} {ms mf qlen : Nat}
    {path : Option String} {size : Option Nat} (rest : List DirEntry)
    (hso : stepOutcome exts ms mf qlen path size = .cutoff) :
    buildQueue exts ms mf qlen (.entry true path size :: rest) = ([], []) := by
  rw [buildQueue_file_step, hso]

theorem buildQueue_file_skip {exts : List String} {ms mf qlen : Nat}
    {path : Option String} {size : Option Nat} {p : String} {reason : SkipReason}
    (rest : List DirEntry)
    (hso : stepOutcome exts ms mf qlen path size = .skip p reason) :
    buildQueue exts ms mf qlen (.entry true path size :: rest) =
      ((buildQueue exts ms mf qlen rest).1,
        ⟨p, reason⟩ :: (buildQueue exts ms mf qlen rest).2) := by
  rw [buildQueue_file_step, hso]

theorem buildQueue_file_queue {exts : List String} {ms mf qlen : Nat}
    {path : Option String} {size : Option Nat} {p : String}
    (rest : List DirEntry)
    (hso : stepOutcome exts ms mf qlen path size = .queue p) :
    buildQueue exts ms mf qlen (.entry true path size :: rest) =
      (p :: (buildQueue exts ms mf (qlen + 1) rest).1,
        (buildQueue exts ms mf (qlen + 1) rest).2) := by
  rw [buildQueue_file_step, hso]

theorem buildQueue_counts (exts : List String) (ms mf : Nat) :
    ∀ (entries : List DirEntry) (qlen : Nat),
      (buildQueue exts ms mf qlen entries).1.length +
        (buildQueue exts ms mf qlen entries).2.length =
        classifiedCount exts ms mf qlen entries := by
  intro entries
  induction entries with
  | nil => intro qlen; simp [buildQueue, classifiedCount]
  | cons e rest ih =>
    intro qlen
    cases e with
    | err =>
      rw [buildQueue_err_step, classifiedCount]
      simp only [List.length_cons]
      have := ih qlen
      omega
    | entry isFile path size =>
      cases isFile with
      | false =>
        rw [buildQueue_nonfile_step, classifiedCount]
        simp only [if_neg (by simp : ¬ (false : Bool) = true)]
        exact ih qlen
      | true =>
        rw [buildQueue_file_step, classifiedCount]
        simp only [if_true]
        rcases stepOutcome exts ms mf qlen path size with _ | ⟨p, reason⟩ | p
        · simp
        · simp only [List.length_cons]
          have := ih qlen
          omega
        · simp only [List.length_cons]
          have := ih (qlen + 1)
          omega

theorem buildQueue_maxlen {exts : List String} {ms mf : Nat} (hmf : 0 < mf) :
    ∀ (entries : List DirEntry) (qlen : Nat), qlen ≤ mf + 1 →
      qlen + (buildQueue exts ms mf qlen entries).1.length ≤ mf + 1 := by
  intro entries
  induction entries with
  | nil => intro qlen hq; simpa [buildQueue] using hq
  | cons e rest ih =>
    intro qlen hq
    cases e with
    | err =>
      rw [buildQueue_err_step]
      exact ih qlen hq
    | entry isFile path size =>
      cases isFile with
      | false =>
        rw [buildQueue_nonfile_step]
        exact ih qlen hq
      | true =>
        rw [buildQueue_file_step]
        rcases hso : stepOutcome exts ms mf qlen path size with _ | ⟨p, reason⟩ | p
        · simpa using hq
        · exact ih qlen hq
        · have hqle : qlen ≤ mf := by
            by_contra hgt
            rcases path with _ | p'
            · cases hso
            · rcases size with _ | sz
              · cases hso
              · rw [stepOutcome, if_pos] at hso
                · cases hso
                · simp only [Bool.and_eq_true, decide_eq_true_eq]
                  omega
          simp only [List.length_cons]
          have := ih (qlen + 1) (by omega)
          omega

theorem stepOutcome_no_sizeskip_of_ms_zero {exts : List String} {mf qlen : Nat}
    {path : Option String} {size : Option Nat} {p : String}
    (hso : stepOutcome exts 0 mf qlen path size = .skip p .sizeExceeded) : False := by
  rcases path with _ | p'
  · cases hso
  · rcases size with _ | sz
    · cases hso
    · rw [stepOutcome] at hso
      split at hso
      · cases hso
      · split at hso
        · cases hso
        · rw [if_pos (by simp)] at hso
          cases hso

theorem buildQueue_no_sizeskip_of_ms_zero {exts : List String} {mf : Nat} :
    ∀ {entries : List DirEntry} {qlen : Nat} {r : SkippedFile},
      r ∈ (buildQueue exts 0 mf qlen entries).2 → r.skip_reason ≠ .sizeExceeded := by
  intro entries
  induction entries with
  | nil => intro qlen r hr; simp [buildQueue] at hr
  | cons e rest ih =>
    intro qlen r hr
    cases e with
    | err =>
      rw [buildQueue_err_step] at hr
      rcases List.mem_cons.mp hr with rfl | hr
      · simp
      · exact ih hr
    | entry isFile path size =>
      cases isFile with
      | false =>
        rw [buildQueue_nonfile_step] at hr
        exact ih hr
      | true =>
        rw [buildQueue_file_step] at hr
        rcases hso : stepOutcome exts 0 mf qlen path size with _ | ⟨p, reason⟩ | p <;>
          rw [hso] at hr
        · simp at hr
        · rcases List.mem_cons.mp hr with rfl | hr
          · intro hcon
            simp only at hcon
            subst hcon
            exact stepOutcome_no_sizeskip_of_ms_zero hso
          · exact ih hr
        · exact ih hr

/-! ### Helper lemmas: the code's filter agrees with the spec's ordered rules -/

theorem stepOutcome_eq_classifySpec (exts : List String) (ms mf qlen : Nat)
    (path : Option String) (size : Option Nat) :
    stepOutcome exts ms mf qlen path size = classifySpec exts ms mf qlen path size := by
  rcases path with _ | p
  · rfl
  · rcases size with _ | sz
    · rfl
    · rw [stepOutcome, classifySpec]
      simp only [Bool.and_eq_true, Bool.or_eq_true, Bool.not_eq_true', decide_eq_true_eq,
        decide_eq_false_iff_not, List.any_eq_false, List.length_pos]
      split_ifs <;> first | rfl | omega

/-! ### Helper lemmas: the scan loop and the pipeline, step by step -/

theorem scanFiles_open_step {readFs : String → ReadOutcome} {pats : List Pat} {f : String}
    (rest : List String) (hr : readFs f = .openError) :
    scanFiles readFs pats (f :: rest) =
      ((scanFiles readFs pats rest).1,
        ⟨f, .openError⟩ :: (scanFiles readFs pats rest).2.1,
        (scanFiles readFs pats rest).2.2) := by
  rw [scanFiles, hr]

theorem scanFiles_read_step {readFs : String → ReadOutcome} {pats : List Pat} {f : String}
    (rest : List String) (hr : readFs f = .readError) :
    scanFiles readFs pats (f :: rest) =
      ((scanFiles readFs pats rest).1,
        ⟨f, .readError⟩ :: (scanFiles readFs pats rest).2.1,
        (scanFiles readFs pats rest).2.2) := by
  rw [scanFiles, hr]

theorem perform_search_ok {glob : String → Except String (List DirEntry)}
    (readFs : String → ReadOutcome) (directory : String) (exts : List String)
    (pats : List Pat) (ms mf : Nat) {entries : List DirEntry}
    (hg : glob (glob_pattern directory) = .ok entries) :
    perform_search glob readFs directory exts pats ms mf =
      .ok
        { matched_files := (scanFiles readFs pats (buildQueue exts ms mf 0 entries).1).1,
          skipped_files := (buildQueue exts ms mf 0 entries).2 ++
            (scanFiles readFs pats (buildQueue exts ms mf 0 entries).1).2.1,
          unmatched_files := (scanFiles readFs pats (buildQueue exts ms mf 0 entries).1).2.2 } := by
  rw [perform_search, hg]

theorem perform_search_error {glob : String → Except String (List DirEntry)}
    (readFs : String → ReadOutcome) (directory : String) (exts : List String)
    (pats : List Pat) (ms mf : Nat) {e : String}
    (hg : glob (glob_pattern directory) = .error e) :
    perform_search glob readFs directory exts pats ms mf =
      .error ("Couldn't retrieve directory entries for the directory (" ++ directory
        ++ "), error: " ++ e) := by
  rw [perform_search, hg]

/-! ## Claim theorems -/

/-- C1, counterexample: the claim "all overlapping and nested pattern
occurrences are detected" is false on the code.  With patterns "ab"
(`[97,98]`) and "abc" (`[97,98,99]`) both in the list and file bytes
"xxabcxx", the default `MatchKind::Standard` non-overlapping `find_iter`
reports "ab" (ending at offset 4) and resumes at offset 4, so "abc" is
never reported: it is not the case that both patterns appear in the file's
matched pattern set. -/
theorem C1_counterexample :
    ¬ ([97, 98] ∈ matchedPatterns [[97, 98], [97, 98, 99]] [120, 120, 97, 98, 99, 120, 120] ∧
       [97, 98, 99] ∈
         matchedPatterns [[97, 98], [97, 98, 99]] [120, 120, 97, 98, 99, 120, 120]) := by
  decide

/-- C1, amended: for a queued file read successfully whose bytes are
"xxabcxx", with patterns "ab" and "abc" both in the pattern list, "ab"
appears in that file's matched pattern set but "abc" does not — the
non-overlapping scan resumes after the end of the reported "ab" match,
suppressing the nested "abc" occurrence. -/
theorem C1_amended_overlap :
    perform_search (fun _ => .ok [.entry true (some "f.txt") (some 7)])
        (fun _ => .ok [120, 120, 97, 98, 99, 120, 120]) "." [] [[97, 98], [97, 98, 99]] 0 0 =
      .ok { matched_files := [⟨"f.txt", [[97, 98]]⟩], skipped_files := [],
            unmatched_files := [] } ∧
    [97, 98] ∈ matchedPatterns [[97, 98], [97, 98, 99]] [120, 120, 97, 98, 99, 120, 120] ∧
    [97, 98, 99] ∉ matchedPatterns [[97, 98], [97, 98, 99]] [120, 120, 97, 98, 99, 120, 120] :=
  ⟨rfl, by decide, by decide⟩

/-- C2, counterexample: with queue-count limit 1 and three eligible
regular files, the code queues two files (the cutoff at line 104 tests
`queued_files.len() > max_files` before classifying the candidate), so
"at most N files are ever queued" fails for N = 1. -/
theorem C2_counterexample :
    ¬ ((buildQueue [] 0 1 0
        [.entry true (some "a") (some 1), .entry true (some "b") (some 1),
         .entry true (some "c") (some 1)]).1.length ≤ 1) := by
  decide

/-- C2, amended: with a configured queue-count limit N > 0 at most N + 1
files are ever queued, and once the already-queued count strictly exceeds
N, a candidate reaching the queue-count check stops consumption: that
candidate and all remaining entries are neither queued nor recorded as
skipped. -/
theorem C2_amended_queue_limit :
    ∀ (exts : List String) (ms mf : Nat) (entries : List DirEntry), 0 < mf →
      (buildQueue exts ms mf 0 entries).1.length ≤ mf + 1 ∧
      ∀ (qlen : Nat) (p : String) (sz : Nat) (rest : List DirEntry), mf < qlen →
        buildQueue exts ms mf qlen (.entry true (some p) (some sz) :: rest) = ([], []) := by
  intro exts ms mf entries hmf
  constructor
  · have h := @buildQueue_maxlen exts ms mf hmf entries 0 (by omega)
    omega
  · intro qlen p sz rest hql
    refine buildQueue_file_cutoff rest ?_
    rw [stepOutcome_eq_classifySpec, classifySpec, if_pos ⟨hmf, hql⟩]

/-- C2, witness for the amended claim at limit 1. -/
theorem C2_witness :
    0 < 1 ∧
    ((buildQueue [] 0 1 0 [.entry true (some "a") (some 1)]).1.length ≤ 1 + 1 ∧
      ∀ (qlen : Nat) (p : String) (sz : Nat) (rest : List DirEntry), 1 < qlen →
        buildQueue [] 0 1 qlen (.entry true (some p) (some sz) :: rest) = ([], [])) :=
  ⟨by decide, C2_amended_queue_limit [] 0 1 [.entry true (some "a") (some 1)] (by decide)⟩

/-- C3: the code evaluated at the failing input.  In a run that queues two
files whose reads succeed, `AhoCorasick::new(patterns)` (line 184) is
executed twice — once per scanned file, inside the per-file loop — not
exactly once before any file is scanned as the claim requires. -/
theorem C3_automaton_rebuilt_per_file :
    automatonBuilds (fun _ => .ok [120])
        ((buildQueue [] 0 0 0
          [.entry true (some "a.txt") (some 1), .entry true (some "b.txt") (some 1)]).1) = 2 ∧
    (2 : Nat) ≠ 1 := by
  decide

/-- C4: the size-filter boundary.  With `max_size = 0` no file in a whole
run is ever skipped with the size-exceeded reason; with `max_size = N > 0`,
a candidate that reaches the size check (valid path and metadata, no
cutoff, extension check passed) with size greater than N is skipped with
the size-exceeded reason; and a candidate of size exactly N is never
skipped with the size-exceeded reason. -/
theorem C4_size_filter :
    (∀ (exts : List String) (mf : Nat) (entries : List DirEntry) (qlen : Nat) (r : SkippedFile),
        r ∈ (buildQueue exts 0 mf qlen entries).2 → r.skip_reason ≠ .sizeExceeded) ∧
    (∀ (exts : List String) (N mf qlen : Nat) (p : String) (sz : Nat),
        0 < N → ¬(0 < mf ∧ mf < qlen) →
        (exts = [] ∨ ∃ e ∈ exts, p.endsWith e = true) → N < sz →
        stepOutcome exts N mf qlen (some p) (some sz) = .skip p .sizeExceeded) ∧
    (∀ (exts : List String) (N mf qlen : Nat) (p : String),
        stepOutcome exts N mf qlen (some p) (some N) ≠ .skip p .sizeExceeded) := by
  refine ⟨fun exts mf entries qlen r hr => buildQueue_no_sizeskip_of_ms_zero hr, ?_, ?_⟩
  · intro exts N mf qlen p sz hN hcut hext hsz
    have hx : ¬ (exts ≠ [] ∧ ∀ e ∈ exts, ¬ p.endsWith e) := by
      rintro ⟨hne, hall⟩
      rcases hext with rfl | ⟨e, he, hee⟩
      · exact hne rfl
      · exact hall e he hee
    rw [stepOutcome_eq_classifySpec, classifySpec, if_neg hcut, if_neg hx, if_pos ⟨hN, hsz⟩]
  · intro exts N mf qlen p
    rw [stepOutcome_eq_classifySpec, classifySpec]
    split_ifs with h1 h2 h3
    · simp
    · simp
    · exfalso; omega
    · simp

/-- C4, witness: a path-encoding skip is never a size skip under
`max_size = 0`; a file of size 2 exceeding limit 1 is size-skipped; a file
of size exactly 1 at limit 1 is not size-skipped. -/
theorem C4_witness :
    ((⟨"Unknown", .pathEncodingError⟩ : SkippedFile) ∈
        (buildQueue [] 0 0 0 [.entry true none none]).2 ∧
      (⟨"Unknown", .pathEncodingError⟩ : SkippedFile).skip_reason ≠ .sizeExceeded) ∧
    (0 < 1 ∧ ¬(0 < (0 : Nat) ∧ (0 : Nat) < 0) ∧
      (([] : List String) = [] ∨ ∃ e ∈ ([] : List String), ("f".endsWith e) = true) ∧ 1 < 2 ∧
      stepOutcome [] 1 0 0 (some "f") (some 2) = .skip "f" .sizeExceeded) ∧
    stepOutcome [] 1 0 0 (some "f") (some 1) ≠ .skip "f" .sizeExceeded :=
  ⟨⟨by decide, C4_size_filter.1 [] 0 [.entry true none none] 0 _ (by decide)⟩,
    ⟨by decide, by decide, Or.inl rfl, by decide,
      C4_size_filter.2.1 [] 1 0 0 "f" 2 (by decide) (by decide) (Or.inl rfl) (by decide)⟩,
    C4_size_filter.2.2 [] 1 0 0 "f"⟩

/-- C5: the extension filter for a candidate that reaches the extension
check (valid path and metadata, no queue-count cutoff): its outcome is one
of queue, size skip or extension skip, and it is skipped with the
extension-mismatch reason exactly when the allow-list is non-empty and the
path string ends with none of the listed suffixes (so an empty list admits
every file, and a non-empty list admits a file iff its path ends with at
least one listed suffix, the suffix comparison being plain string-suffix
including any separator character). -/
theorem C5_extension_filter :
    ∀ (exts : List String) (ms mf qlen : Nat) (p : String) (sz : Nat),
      ¬(0 < mf ∧ mf < qlen) →
      (stepOutcome exts ms mf qlen (some p) (some sz) = .queue p ∨
       stepOutcome exts ms mf qlen (some p) (some sz) = .skip p .sizeExceeded ∨
       stepOutcome exts ms mf qlen (some p) (some sz) = .skip p .extensionMismatch) ∧
      (stepOutcome exts ms mf qlen (some p) (some sz) = .skip p .extensionMismatch ↔
        exts ≠ [] ∧ ∀ e ∈ exts, ¬ p.endsWith e) := by
  intro exts ms mf qlen p sz hcut
  rw [stepOutcome_eq_classifySpec, classifySpec, if_neg hcut]
  split_ifs with h2 h3
  · exact ⟨Or.inr (Or.inr rfl), iff_of_true rfl h2⟩
  · exact ⟨Or.inr (Or.inl rfl), iff_of_false (by simp) h2⟩
  · exact ⟨Or.inl rfl, iff_of_false (by simp) h2⟩

/-- C5, witness at a singleton allow-list with no cutoff configured. -/
theorem C5_witness :
    ¬(0 < (0 : Nat) ∧ (0 : Nat) < 0) ∧
    ((stepOutcome [".rs"] 0 0 0 (some "a.rs") (some 5) = .queue "a.rs" ∨
      stepOutcome [".rs"] 0 0 0 (some "a.rs") (some 5) = .skip "a.rs" .sizeExceeded ∨
      stepOutcome [".rs"] 0 0 0 (some "a.rs") (some 5) = .skip "a.rs" .extensionMismatch) ∧
     (stepOutcome [".rs"] 0 0 0 (some "a.rs") (some 5) = .skip "a.rs" .extensionMismatch ↔
       [".rs"] ≠ [] ∧ ∀ e ∈ [".rs"], ¬ "a.rs".endsWith e)) :=
  ⟨by decide, C5_extension_filter [".rs"] 0 0 0 "a.rs" 5 (by decide)⟩

/-- C6: the partition property.  For a fixed filesystem snapshot (the
entry list and read function are fixed) and policy, the three result
buckets together hold exactly one record per classified entry (no entry is
double-counted or dropped, and candidates past the queue-count cutoff are
in no bucket, since `classifiedCount` stops at the cutoff); and the
unmatched bucket contains only queued files whose scan produced an empty
matched-pattern list. -/
theorem C6_partition :
    ∀ (glob : String → Except String (List DirEntry)) (readFs : String → ReadOutcome)
      (directory : String) (exts : List String) (pats : List Pat) (ms mf : Nat)
      (entries : List DirEntry) (res : SearchResults),
      glob (glob_pattern directory) = .ok entries →
      perform_search glob readFs directory exts pats ms mf = .ok res →
      (res.matched_files.length + res.unmatched_files.length + res.skipped_files.length =
        classifiedCount exts ms mf 0 entries) ∧
      ∀ f ∈ res.unmatched_files,
        f ∈ (buildQueue exts ms mf 0 entries).1 ∧
        ∃ c, readFs f = .ok c ∧ matchedPatterns pats c = [] := by
  intro glob readFs directory exts pats ms mf entries res hg hps
  rw [perform_search_ok readFs directory exts pats ms mf hg] at hps
  injection hps with hres
  subst hres
  constructor
  · have h1 := scanFiles_counts readFs pats (buildQueue exts ms mf 0 entries).1
    have h2 := buildQueue_counts exts ms mf entries 0
    simp only [List.length_append]
    omega
  · intro f hf
    exact mem_scanFiles_unmatched hf

/-- C6, witness: a one-file run whose only file is queued, read, and
matches nothing, so it lands exactly in the unmatched bucket. -/
theorem C6_witness :
    ((fun _ : String => (Except.ok [DirEntry.entry true (some "u") (some 1)] :
          Except String (List DirEntry)))
        (glob_pattern ".") = .ok [DirEntry.entry true (some "u") (some 1)]) ∧
    (perform_search (fun _ => .ok [DirEntry.entry true (some "u") (some 1)])
        (fun _ => .ok [98]) "." [] [[97]] 0 0 =
      .ok { matched_files := [], skipped_files := [], unmatched_files := ["u"] }) ∧
    (((0 : Nat) + 1 + 0 = classifiedCount [] 0 0 0 [DirEntry.entry true (some "u") (some 1)]) ∧
      ∀ f ∈ ["u"],
        f ∈ (buildQueue [] 0 0 0 [DirEntry.entry true (some "u") (some 1)]).1 ∧
        ∃ c, (fun _ : String => ReadOutcome.ok [98]) f = .ok c ∧
          matchedPatterns [[97]] c = []) :=
  ⟨rfl, rfl,
    C6_partition (fun _ => .ok [DirEntry.entry true (some "u") (some 1)]) (fun _ => .ok [98])
      "." [] [[97]] 0 0 [DirEntry.entry true (some "u") (some 1)]
      { matched_files := [], skipped_files := [], unmatched_files := ["u"] } rfl rfl⟩

/-- C7, counterexample: with patterns "ab", "ba", "c" over file bytes
"abacba", the recorded order is ["ab", "c", "ba"], but the first
occurrence of "ba" starts at offset 1 while that of "c" starts at offset
3, so the list is not in first-occurrence order by start offset: the first
"ba" occurrence overlaps the reported "ab" match and is never reported,
and "ba" is only recorded from its later occurrence at offset 4. -/
theorem C7_counterexample :
    matchedPatterns [[97, 98], [98, 97], [99]] [97, 98, 97, 99, 98, 97] =
      [[97, 98], [99], [98, 97]] ∧
    firstOccIdx [98, 97] [97, 98, 97, 99, 98, 97] = some 1 ∧
    firstOccIdx [99] [97, 98, 97, 99, 98, 97] = some 3 ∧
    ¬ sortedByFirstOcc [97, 98, 97, 99, 98, 97]
        (matchedPatterns [[97, 98], [98, 97], [99]] [97, 98, 97, 99, 98, 97]) := by
  refine ⟨by decide, by decide, by decide, fun hsort => ?_⟩
  rw [show matchedPatterns [[97, 98], [98, 97], [99]] [97, 98, 97, 99, 98, 97] =
      [[97, 98], [99], [98, 97]] from by decide] at hsort
  simp only [sortedByFirstOcc] at hsort
  have h2 := (List.pairwise_cons.mp hsort).2
  have h3 := (List.pairwise_cons.mp h2).1 [98, 97] (List.mem_singleton.mpr rfl)
  revert h3
  decide

/-- C7, amended: every `MatchedFile` produced by the scan has a non-empty
pattern list, drawn from the original pattern list, without duplicates,
and ordered by strictly increasing start offset of each pattern's first
*reported* occurrence in the non-overlapping scan (which can differ from
first-occurrence order in the file when an earlier occurrence is
suppressed by a preceding non-overlapping match). -/
theorem C7_amended_pattern_sets :
    ∀ (readFs : String → ReadOutcome) (pats : List Pat) (files : List String)
      (mf : MatchedFile), mf ∈ (scanFiles readFs pats files).1 →
      mf.matched_patterns ≠ [] ∧
      (∀ p ∈ mf.matched_patterns, p ∈ pats) ∧
      mf.matched_patterns.Nodup ∧
      ∃ c, readFs mf.file_path = .ok c ∧
        List.Pairwise (fun p q => ∃ sp sq,
            firstReportedStart pats c p = some sp ∧
            firstReportedStart pats c q = some sq ∧ sp < sq)
          mf.matched_patterns := by
  intro readFs pats files mf hmf
  obtain ⟨hpath, hpos, c, hc, hmp⟩ := mem_scanFiles_matched hmf
  refine ⟨List.length_pos.mp hpos, ?_, ?_, c, hc, ?_⟩
  · intro p hp
    rw [hmp] at hp
    exact matchedPatterns_mem hp
  · rw [hmp]
    exact matchedPatterns_nodup pats c
  · rw [hmp]
    exact matchedPatterns_pairwise pats c

/-- C7, witness: a one-file scan producing the matched file
`⟨"f", [[97]]⟩`. -/
theorem C7_witness :
    (⟨"f", [[97]]⟩ : MatchedFile) ∈ (scanFiles (fun _ => .ok [97]) [[97]] ["f"]).1 ∧
    (([[97]] : List Pat) ≠ [] ∧
      (∀ p ∈ ([[97]] : List Pat), p ∈ ([[97]] : List Pat)) ∧
      ([[97]] : List Pat).Nodup ∧
      ∃ c, (fun _ : String => ReadOutcome.ok [97]) "f" = .ok c ∧
        List.Pairwise (fun p q => ∃ sp sq,
            firstReportedStart [[97]] c p = some sp ∧
            firstReportedStart [[97]] c q = some sq ∧ sp < sq)
          ([[97]] : List Pat)) :=
  ⟨by decide,
    C7_amended_pattern_sets (fun _ => .ok [97]) [[97]] ["f"] ⟨"f", [[97]]⟩ (by decide)⟩

/-- C8: per-file error handling.  Each of the five per-file failure kinds
— a glob entry error, an invalid-UTF-8 path, a metadata failure, an open
failure, a read failure — produces exactly one `SkippedFile` record while
the remaining entries or files are still processed; a run whose root
traversal is established never returns an error; and a failure
establishing the root traversal is returned as the top-level error result,
not as a skip record. -/
theorem C8_error_handling :
    (∀ (exts : List String) (ms mf qlen : Nat) (rest : List DirEntry),
        buildQueue exts ms mf qlen (.err :: rest) =
          ((buildQueue exts ms mf qlen rest).1,
            ⟨"Unknown", .enumerationError⟩ :: (buildQueue exts ms mf qlen rest).2)) ∧
    (∀ (exts : List String) (ms mf qlen : Nat) (size : Option Nat) (rest : List DirEntry),
        buildQueue exts ms mf qlen (.entry true none size :: rest) =
          ((buildQueue exts ms mf qlen rest).1,
            ⟨"Unknown", .pathEncodingError⟩ :: (buildQueue exts ms mf qlen rest).2)) ∧
    (∀ (exts : List String) (ms mf qlen : Nat) (p : String) (rest : List DirEntry),
        buildQueue exts ms mf qlen (.entry true (some p) none :: rest) =
          ((buildQueue exts ms mf qlen rest).1,
            ⟨p, .metadataError⟩ :: (buildQueue exts ms mf qlen rest).2)) ∧
    (∀ (readFs : String → ReadOutcome) (pats : List Pat) (f : String) (rest : List String),
        readFs f = .openError →
        scanFiles readFs pats (f :: rest) =
          ((scanFiles readFs pats rest).1,
            ⟨f, .openError⟩ :: (scanFiles readFs pats rest).2.1,
            (scanFiles readFs pats rest).2.2)) ∧
    (∀ (readFs : String → ReadOutcome) (pats : List Pat) (f : String) (rest : List String),
        readFs f = .readError →
        scanFiles readFs pats (f :: rest) =
          ((scanFiles readFs pats rest).1,
            ⟨f, .readError⟩ :: (scanFiles readFs pats rest).2.1,
            (scanFiles readFs pats rest).2.2)) ∧
    (∀ (glob : String → Except String (List DirEntry)) (readFs : String → ReadOutcome)
        (directory : String) (exts : List String) (pats : List Pat) (ms mf : Nat)
        (entries : List DirEntry),
        glob (glob_pattern directory) = .ok entries →
        ∃ res, perform_search glob readFs directory exts pats ms mf = .ok res) ∧
    (∀ (glob : String → Except String (List DirEntry)) (readFs : String → ReadOutcome)
        (directory : String) (exts : List String) (pats : List Pat) (ms mf : Nat)
        (e : String),
        glob (glob_pattern directory) = .error e →
        perform_search glob readFs directory exts pats ms mf =
          .error ("Couldn't retrieve directory entries for the directory (" ++ directory
            ++ "), error: " ++ e)) := by
  refine ⟨fun exts ms mf qlen rest => buildQueue_err_step exts ms mf qlen rest,
    fun exts ms mf qlen size rest => buildQueue_file_skip rest rfl,
    fun exts ms mf qlen p rest => buildQueue_file_skip rest rfl,
    fun readFs pats f rest hr => scanFiles_open_step rest hr,
    fun readFs pats f rest hr => scanFiles_read_step rest hr,
    fun glob readFs directory exts pats ms mf entries hg =>
      ⟨_, perform_search_ok readFs directory exts pats ms mf hg⟩,
    fun glob readFs directory exts pats ms mf e hg =>
      perform_search_error readFs directory exts pats ms mf hg⟩

/-- C8, witness for the conditioned conjuncts: an open failure, a read
failure, a successful traversal, and a failed traversal, each at a
concrete input. -/
theorem C8_witness :
    ((fun _ : String => ReadOutcome.openError) "f" = ReadOutcome.openError ∧
      scanFiles (fun _ => ReadOutcome.openError) [[97]] ["f"] =
        ((scanFiles (fun _ => ReadOutcome.openError) [[97]] []).1,
          ⟨"f", .openError⟩ :: (scanFiles (fun _ => ReadOutcome.openError) [[97]] []).2.1,
          (scanFiles (fun _ => ReadOutcome.openError) [[97]] []).2.2)) ∧
    ((fun _ : String => ReadOutcome.readError) "f" = ReadOutcome.readError ∧
      scanFiles (fun _ => ReadOutcome.readError) [[97]] ["f"] =
        ((scanFiles (fun _ => ReadOutcome.readError) [[97]] []).1,
          ⟨"f", .readError⟩ :: (scanFiles (fun _ => ReadOutcome.readError) [[97]] []).2.1,
          (scanFiles (fun _ => ReadOutcome.readError) [[97]] []).2.2)) ∧
    ((fun _ : String => (Except.ok [] : Except String (List DirEntry))) (glob_pattern ".") =
        .ok [] ∧
      ∃ res, perform_search (fun _ => .ok []) (fun _ => ReadOutcome.openError) "." [] [[97]]
        0 0 = .ok res) ∧
    ((fun _ : String => (Except.error "boom" : Except String (List DirEntry)))
        (glob_pattern ".") = .error "boom" ∧
      perform_search (fun _ => .error "boom") (fun _ => ReadOutcome.openError) "." [] [[97]]
          0 0 =
        .error ("Couldn't retrieve directory entries for the directory (" ++ "."
          ++ "), error: " ++ "boom")) :=
  ⟨⟨rfl, C8_error_handling.2.2.2.1 (fun _ => ReadOutcome.openError) [[97]] "f" [] rfl⟩,
    ⟨rfl, C8_error_handling.2.2.2.2.1 (fun _ => ReadOutcome.readError) [[97]] "f" [] rfl⟩,
    ⟨rfl, C8_error_handling.2.2.2.2.2.1 (fun _ => .ok []) (fun _ => ReadOutcome.openError)
      "." [] [[97]] 0 0 [] rfl⟩,
    ⟨rfl, C8_error_handling.2.2.2.2.2.2 (fun _ => .error "boom")
      (fun _ => ReadOutcome.openError) "." [] [[97]] 0 0 "boom" rfl⟩⟩

/-- C9: for a regular-file candidate, the code's filter equals the spec's
decision rules applied in the spec's fixed order — path-encoding, then
metadata, then the queue-count cutoff, then the extension allow-list, then
the size limit — so the first failing check determines the candidate's
single outcome; in particular `classifySpec` tests the extension list
before the size limit, so a candidate failing both is skipped with the
extension-mismatch reason. -/
theorem C9_check_order :
    ∀ (exts : List String) (ms mf qlen : Nat) (path : Option String) (size : Option Nat),
      stepOutcome exts ms mf qlen path size = classifySpec exts ms mf qlen path size :=
  stepOutcome_eq_classifySpec

/-- C10: `perform_search` returns a top-level error exactly when the glob
traversal itself fails (the `glob` crate fails only on a malformed
pattern); any established traversal — including one that yields no entries
at all, as for a nonexistent or empty directory — produces a successful
`SearchResults`, with all three buckets empty when nothing is
enumerated. -/
theorem C10_toplevel_errors :
    (∀ (glob : String → Except String (List DirEntry)) (readFs : String → ReadOutcome)
        (directory : String) (exts : List String) (pats : List Pat) (ms mf : Nat)
        (e : String),
        glob (glob_pattern directory) = .error e →
        perform_search glob readFs directory exts pats ms mf =
          .error ("Couldn't retrieve directory entries for the directory (" ++ directory
            ++ "), error: " ++ e)) ∧
    (∀ (glob : String → Except String (List DirEntry)) (readFs : String → ReadOutcome)
        (directory : String) (exts : List String) (pats : List Pat) (ms mf : Nat)
        (entries : List DirEntry),
        glob (glob_pattern directory) = .ok entries →
        ∃ res, perform_search glob readFs directory exts pats ms mf = .ok res) ∧
    (∀ (glob : String → Except String (List DirEntry)) (readFs : String → ReadOutcome)
        (directory : String) (exts : List String) (pats : List Pat) (ms mf : Nat),
        glob (glob_pattern directory) = .ok [] →
        perform_search glob readFs directory exts pats ms mf =
          .ok { matched_files := [], skipped_files := [], unmatched_files := [] }) := by
  refine ⟨fun glob readFs directory exts pats ms mf e hg =>
      perform_search_error readFs directory exts pats ms mf hg,
    fun glob readFs directory exts pats ms mf entries hg =>
      ⟨_, perform_search_ok readFs directory exts pats ms mf hg⟩,
    fun glob readFs directory exts pats ms mf hg => ?_⟩
  rw [perform_search_ok readFs directory exts pats ms mf hg]
  rfl

/-- C10, witness: a failing glob, a succeeding glob, and an empty entry
list, each at a concrete input. -/
theorem C10_witness :
    ((fun _ : String => (Except.error "bad" : Except String (List DirEntry)))
        (glob_pattern "d") = .error "bad" ∧
      perform_search (fun _ => .error "bad") (fun _ => ReadOutcome.openError) "d" [] [[97]]
          0 0 =
        .error ("Couldn't retrieve directory entries for the directory (" ++ "d"
          ++ "), error: " ++ "bad")) ∧
    ((fun _ : String => (Except.ok [DirEntry.err] : Except String (List DirEntry)))
        (glob_pattern "d") = .ok [DirEntry.err] ∧
      ∃ res, perform_search (fun _ => .ok [DirEntry.err]) (fun _ => ReadOutcome.openError)
        "d" [] [[97]] 0 0 = .ok res) ∧
    ((fun _ : String => (Except.ok [] : Except String (List DirEntry))) (glob_pattern "d") =
        .ok [] ∧
      perform_search (fun _ => .ok []) (fun _ => ReadOutcome.openError) "d" [] [[97]] 0 0 =
        .ok { matched_files := [], skipped_files := [], unmatched_files := [] }) :=
  ⟨⟨rfl, C10_toplevel_errors.1 (fun _ => .error "bad") (fun _ => ReadOutcome.openError)
      "d" [] [[97]] 0 0 "bad" rfl⟩,
    ⟨rfl, C10_toplevel_errors.2.1 (fun _ => .ok [DirEntry.err])
      (fun _ => ReadOutcome.openError) "d" [] [[97]] 0 0 [DirEntry.err] rfl⟩,
    ⟨rfl, C10_toplevel_errors.2.2 (fun _ => .ok []) (fun _ => ReadOutcome.openError)
      "d" [] [[97]] 0 0 rfl⟩⟩

end ContentSearch
